import Mathlib

/-!
Shallow embedding of the GP2 host-graph runtime core (`Compiler/graph.c`):
the label data model, label classification, the slotted node/edge stores
with their free-slot stacks, the label-class secondary indices, the root
list, the validation predicate `validGraph`, the snapshot copy
`copyGraph`, and all public mutating operations.

Modelling conventions, used uniformly below:
* C `int` counters and indices are modelled as `Nat`; the code maintains
  them non-negative on every path exercised here.
* A `calloc`-ed pointer array is modelled as a `List (Option Nat)` read
  with default `none`: entries never written behave like the zeroed
  C array (`NULL`).
* Heap pointers are modelled as allocation indices (`Nat`) into a pool
  (`Heap`); two pointers are equal exactly when their indices are equal,
  and `malloc` never reuses an index, mirroring object identity.
  `free` is a no-op on the pool: freed objects are simply no longer
  referenced from any graph structure.
* A GLib `GSList`/`GList` is a `List`; `g_slist_prepend` is `cons`,
  `g_slist_remove` is `List.erase` (first occurrence, pointer equality),
  `g_slist_find` is `List.contains`.
* A `GHashTable` keyed by label class is a function
  `LabelClass → List Nat`; GLib returns `NULL` both for a missing key
  and for a key bound to the empty list, so the function representation
  is observationally exact.
* Console/log diagnostics are not part of the state; where a claim is
  about a diagnostic being emitted, a separate `Bool`-valued definition
  captures the condition under which the C code prints it.
* Dereferencing a `NULL` pointer is undefined behaviour in C; operations
  that would do so return `none`.
-/

/-- The `MarkType` enum of GP2 labels. -/
inductive MarkType where
  | NONE
  | RED
  | GREEN
  | BLUE
  | GREY
  | DASHED
  | ANY
deriving DecidableEq, Inhabited

/-- The `LabelClass` enum: the coarse classification used as the key of the
secondary indices. -/
inductive LabelClass where
  | EMPTY_L
  | INT_L
  | STRING_L
  | ATOMIC_VAR_L
  | LIST2_L
  | LIST3_L
  | LIST4_L
  | LIST5_L
  | LISTVAR_L
deriving DecidableEq, Inhabited

/-- All label classes, for quantification over the finitely many index keys. -/
def allLabelClasses : List LabelClass :=
  [.EMPTY_L, .INT_L, .STRING_L, .ATOMIC_VAR_L, .LIST2_L, .LIST3_L, .LIST4_L,
   .LIST5_L, .LISTVAR_L]

/-- The `ListElement` atom type (tagged union over `AtomType`), as printed by
`printListElement` and traversed by `copyListElement`/`freeListElement`.
Sub-expression pointers are modelled as direct sub-terms; GP2 atoms built by
the front end have no null sub-expressions. -/
inductive ListElement where
  | VARIABLE (name : String)
  | INTEGER_CONSTANT (number : Int)
  | CHARACTER_CONSTANT (text : String)
  | STRING_CONSTANT (text : String)
  | INDEGREE (node_id : String)
  | OUTDEGREE (node_id : String)
  | LIST_LENGTH (list_arg : List ListElement)
  | STRING_LENGTH (str_arg : ListElement)
  | NEG (exp : ListElement)
  | ADD (left_exp right_exp : ListElement)
  | SUBTRACT (left_exp right_exp : ListElement)
  | MULTIPLY (left_exp right_exp : ListElement)
  | DIVIDE (left_exp right_exp : ListElement)
  | CONCAT (left_exp right_exp : ListElement)

/-- The `Label` struct: a mark, a `GList` of atoms (the empty list modelling
a `NULL` `GList`), a recorded list length, and the flag recording that the
label contains a variable of list type. -/
structure Label where
  mark : MarkType
  list : List ListElement
  list_length : Nat
  has_list_variable : Bool

/-- The static `blank_label` sentinel: `{ NONE, NULL, 0, false }`. -/
def blank_label : Label :=
  { mark := .NONE, list := [], list_length := 0, has_list_variable := false }

/-- `getLabelClass` from `graph.c`. The translation preserves the control
flow exactly: the list-variable flag is tested first, then the `NULL` list,
then the `switch` on the recorded length for 2..5; any other length greater
than one logs an error and falls through to the length-one classification of
the first atom, whose `default` case returns `LISTVAR_L`. -/
def getLabelClass (label : Label) : LabelClass :=
  if label.has_list_variable then .LISTVAR_L
  else
    match label.list with
    | [] => .EMPTY_L
    | atom :: _ =>
      if label.list_length = 2 then .LIST2_L
      else if label.list_length = 3 then .LIST3_L
      else if label.list_length = 4 then .LIST4_L
      else if label.list_length = 5 then .LIST5_L
      else
        match atom with
        | .VARIABLE _ => .ATOMIC_VAR_L
        | .INTEGER_CONSTANT _ => .INT_L
        | .NEG _ => .INT_L
        | .CHARACTER_CONSTANT _ => .STRING_L
        | .STRING_CONSTANT _ => .STRING_L
        | .CONCAT _ _ => .STRING_L
        | _ => .LISTVAR_L

/-- The condition under which `getLabelClass` prints the
"length of the passed list exceeds the GP 2 maximum" log message: the
`default` branch of the length `switch`, reached when the list-variable flag
is clear, the list is non-`NULL`, and the recorded length is greater than 1
but not 2, 3, 4 or 5. -/
def labelTooLongLogged (label : Label) : Bool :=
  !label.has_list_variable && !label.list.isEmpty &&
    decide (1 < label.list_length) &&
    !(label.list_length = 2 || label.list_length = 3 ||
      label.list_length = 4 || label.list_length = 5)

/-- The label-classification table as worded by the specification (section
"Label class" and claim C4): empty list gives `empty`; a list-length
variable anywhere gives `list_var`; a length-1 list classifies by its atom
kind; lengths 2..5 give `list2`..`list5`; everything else (length over 5,
or a length-1 atom kind outside the table) is left unspecified (`none`).
This definition follows the specification's words and exists only to be
compared with `getLabelClass`, which is translated from the source. -/
def specLabelClass (l : Label) : Option LabelClass :=
  if l.has_list_variable then some .LISTVAR_L
  else
    match l.list with
    | [] => some .EMPTY_L
    | [atom] =>
      match atom with
      | .INTEGER_CONSTANT _ => some .INT_L
      | .NEG _ => some .INT_L
      | .CHARACTER_CONSTANT _ => some .STRING_L
      | .STRING_CONSTANT _ => some .STRING_L
      | .CONCAT _ _ => some .STRING_L
      | .VARIABLE _ => some .ATOMIC_VAR_L
      | _ => none
    | _ :: _ :: rest =>
      if rest.length = 0 then some .LIST2_L
      else if rest.length = 1 then some .LIST3_L
      else if rest.length = 2 then some .LIST4_L
      else if rest.length = 3 then some .LIST5_L
      else none

/-- `copyListElement` from `graph.c`: duplicates constants and variables and
recursively copies `NEG` and `CONCAT` sub-expressions. The C `default`
branch (all other atom kinds) logs an error and returns `NULL`; a `NEG` or
`CONCAT` whose sub-copy is `NULL` would carry a null sub-expression whose
every later use dereferences it. Both are modelled as `none`. -/
def copyListElement : ListElement → Option ListElement
  | .VARIABLE name => some (.VARIABLE name)
  | .INTEGER_CONSTANT number => some (.INTEGER_CONSTANT number)
  | .CHARACTER_CONSTANT text => some (.CHARACTER_CONSTANT text)
  | .STRING_CONSTANT text => some (.STRING_CONSTANT text)
  | .NEG exp => (copyListElement exp).map .NEG
  | .CONCAT l r =>
    match copyListElement l, copyListElement r with
    | some lc, some rc => some (.CONCAT lc rc)
    | _, _ => none
  | _ => none

/-- `copyLabel` from `graph.c`. Label pointers are `Option Label` with
`none` standing for the static `&blank_label` sentinel, which is returned
unchanged. For a heap label the copy is `malloc`-ed; when the atom list is
`NULL` the C code assigns only `label_copy->list` and returns, leaving
`mark`, `list_length` and `has_list_variable` as uninitialized malloc
garbage — the parameters `gmark`, `glen`, `gvar` stand for whatever bytes
the allocation happened to contain. When the list is non-`NULL` it is
deep-copied in order and all four fields are assigned. The outer `Option`
is `none` when some atom copy returns `NULL` (see `copyListElement`). -/
def copyLabel (gmark : MarkType) (glen : Nat) (gvar : Bool) :
    Option Label → Option (Option Label)
  | none => some none
  | some l =>
    if l.list.isEmpty then
      some (some { mark := gmark, list := [], list_length := glen,
                   has_list_variable := gvar })
    else
      (l.list.mapM copyListElement).map fun list_copy =>
        some { mark := l.mark, list := list_copy, list_length := l.list_length,
               has_list_variable := l.has_list_variable }

/-- The `Node` struct. Incidence arrays hold edge pointers (pool indices);
`free_out_edge_slots`/`free_in_edge_slots` are the `Stack`s of freed
incidence slots with the head as the stack top. -/
structure NodeObj where
  index : Nat
  root : Bool
  label_class : LabelClass
  label : Option Label
  indegree : Nat
  outdegree : Nat
  out_edges : List (Option Nat)
  in_edges : List (Option Nat)
  free_out_edge_slots : List Nat
  free_in_edge_slots : List Nat
  next_out_edge_index : Nat
  next_in_edge_index : Nat
deriving Inhabited

/-- The `Edge` struct; `source` and `target` are node pointers (pool
indices), weak references into the node store. -/
structure EdgeObj where
  index : Nat
  bidirectional : Bool
  label_class : LabelClass
  label : Option Label
  source : Nat
  target : Nat
deriving Inhabited

/-- The allocation pools standing for the C heap: a node or edge pointer is
an index into the respective pool. Pools only grow, so pointers are never
reused and pointer equality is index equality. -/
structure Heap where
  nodePool : List NodeObj
  edgePool : List EdgeObj

/-- Dereference a node pointer. Every pointer dereferenced by the code
below is a live pool index; the default is never read on those paths. -/
def Heap.node (h : Heap) (r : Nat) : NodeObj :=
  h.nodePool.getD r default

/-- Dereference an edge pointer. -/
def Heap.edge (h : Heap) (r : Nat) : EdgeObj :=
  h.edgePool.getD r default

/-- Overwrite the node object a pointer refers to (a field assignment
through the pointer in C). -/
def Heap.setNode (h : Heap) (r : Nat) (obj : NodeObj) : Heap :=
  { h with nodePool := h.nodePool.set r obj }

/-- Overwrite the edge object a pointer refers to. -/
def Heap.setEdge (h : Heap) (r : Nat) (obj : EdgeObj) : Heap :=
  { h with edgePool := h.edgePool.set r obj }

/-- `malloc` a node: append to the pool and return the fresh pointer. -/
def Heap.allocNode (h : Heap) (obj : NodeObj) : Heap × Nat :=
  ({ h with nodePool := h.nodePool ++ [obj] }, h.nodePool.length)

/-- `malloc` an edge. -/
def Heap.allocEdge (h : Heap) (obj : EdgeObj) : Heap × Nat :=
  ({ h with edgePool := h.edgePool ++ [obj] }, h.edgePool.length)

/-- The empty heap (no allocations yet). -/
def emptyHeap : Heap := { nodePool := [], edgePool := [] }

/-- Read slot `i` of a pointer array. Entries beyond the written prefix
read as `NULL`, exactly like the zeroed `calloc` array. -/
def slotGet (arr : List (Option Nat)) (i : Nat) : Option Nat :=
  arr.getD i none

/-- Write slot `i` of a pointer array, zero-extending to reach the slot
when it lies beyond the written prefix. -/
def slotSet (arr : List (Option Nat)) (i : Nat) (v : Option Nat) :
    List (Option Nat) :=
  (arr ++ List.replicate (i + 1 - arr.length) none).set i v

/-- Number of non-`NULL` pointers among slots `0..bound-1`; the counting
idiom of `validGraph`'s loops. -/
def countPopulated (arr : List (Option Nat)) (bound : Nat) : Nat :=
  ((List.range bound).filter fun i => (slotGet arr i).isSome).length

/-- The free-slot `Stack` membership scan (`iterator = stack->top; ...`). -/
def stackContains (stack : List Nat) (slot : Nat) : Bool :=
  stack.contains slot

/-- The `Graph` struct: slotted node and edge stores, their free-slot
stacks, high-water marks (`next_node_index`/`next_edge_index`), entity
counts, the two label-class hash tables and the root-node list. -/
structure Graph where
  nodes : List (Option Nat)
  edges : List (Option Nat)
  free_node_slots : List Nat
  free_edge_slots : List Nat
  next_node_index : Nat
  next_edge_index : Nat
  number_of_nodes : Nat
  number_of_edges : Nat
  nodes_by_label : LabelClass → List Nat
  edges_by_label : LabelClass → List Nat
  root_nodes : List Nat

/-- `newGraph` from `graph.c`: empty stores, empty free-slot stacks, zero
high-water marks and counts, empty hash tables, no root nodes. -/
def newGraph : Graph :=
  { nodes := [], edges := [], free_node_slots := [], free_edge_slots := [],
    next_node_index := 0, next_edge_index := 0,
    number_of_nodes := 0, number_of_edges := 0,
    nodes_by_label := fun _ => [], edges_by_label := fun _ => [],
    root_nodes := [] }

/-- `newNode` from `graph.c`: allocates a node with the given root flag and
label pointer (`none` = the caller passed `NULL`, so the blank sentinel is
adopted and the class is `EMPTY_L`; otherwise the class is computed by
`getLabelClass`), zeroed degrees, fresh empty incidence arrays and
free-slot stacks. -/
def newNode (h : Heap) (root : Bool) (label : Option Label) : Heap × Nat :=
  let node : NodeObj :=
    { index := 0
      root := root
      label_class := match label with
        | none => .EMPTY_L
        | some l => getLabelClass l
      label := label
      indegree := 0, outdegree := 0
      out_edges := [], in_edges := []
      free_out_edge_slots := [], free_in_edge_slots := []
      next_out_edge_index := 0, next_in_edge_index := 0 }
  h.allocNode node

/-- `newEdge` from `graph.c`. -/
def newEdge (h : Heap) (bidirectional : Bool) (label : Option Label)
    (source target : Nat) : Heap × Nat :=
  let edge : EdgeObj :=
    { index := 0
      bidirectional := bidirectional
      label_class := match label with
        | none => .EMPTY_L
        | some l => getLabelClass l
      label := label
      source := source, target := target }
  h.allocEdge edge

/-- `getNode` from `graph.c`. Note the bound check is `index > h`, not
`index >= h`: at `index = next_node_index` the slot one past the high-water
mark is read (always `NULL`) with no out-of-range diagnostic. -/
def getNode (g : Graph) (index : Nat) : Option Nat :=
  if index > g.next_node_index then none
  else slotGet g.nodes index

/-- The condition under which `getNode` prints its out-of-range error. -/
def getNodeOutOfRange (g : Graph) (index : Nat) : Bool :=
  decide (index > g.next_node_index)

/-- `getEdge` from `graph.c`; same `>` bound check as `getNode`. -/
def getEdge (g : Graph) (index : Nat) : Option Nat :=
  if index > g.next_edge_index then none
  else slotGet g.edges index

/-- The condition under which `getEdge` prints its out-of-range error. -/
def getEdgeOutOfRange (g : Graph) (index : Nat) : Bool :=
  decide (index > g.next_edge_index)

/-- `getOutEdge` from `graph.c` (same `>` bound idiom). -/
def NodeObj.getOutEdge (node : NodeObj) (index : Nat) : Option Nat :=
  if index > node.next_out_edge_index then none
  else slotGet node.out_edges index

/-- `getInEdge` from `graph.c`. -/
def NodeObj.getInEdge (node : NodeObj) (index : Nat) : Option Nat :=
  if index > node.next_in_edge_index then none
  else slotGet node.in_edges index

/-- `getNodesByLabel`. -/
def getNodesByLabel (g : Graph) (label_class : LabelClass) : List Nat :=
  g.nodes_by_label label_class

/-- `getEdgesByLabel`. -/
def getEdgesByLabel (g : Graph) (label_class : LabelClass) : List Nat :=
  g.edges_by_label label_class

/-- `getRootNodes`. -/
def getRootNodes (g : Graph) : List Nat :=
  g.root_nodes

/-- `addNode` from `graph.c`: pop a free slot if the stack is non-empty
and place the node there, writing the slot into `node->index`; otherwise
place it at the high-water mark and increment the mark. Then prepend the
node to the `nodes_by_label` list for its class, prepend to the root list
if its root flag is set, and increment `number_of_nodes`. -/
def addNode (h : Heap) (g : Graph) (n : Nat) : Heap × Graph :=
  let node := h.node n
  let placed : Heap × Graph :=
    match g.free_node_slots with
    | [] =>
      (h.setNode n { node with index := g.next_node_index },
       { g with nodes := slotSet g.nodes g.next_node_index (some n),
                next_node_index := g.next_node_index + 1 })
    | s :: rest =>
      (h.setNode n { node with index := s },
       { g with nodes := slotSet g.nodes s (some n),
                free_node_slots := rest })
  let h1 := placed.1
  let g1 := placed.2
  let g2 := { g1 with
    nodes_by_label := fun c =>
      if c = node.label_class then n :: g1.nodes_by_label node.label_class
      else g1.nodes_by_label c }
  let g3 := if node.root then { g2 with root_nodes := n :: g2.root_nodes }
            else g2
  (h1, { g3 with number_of_nodes := g3.number_of_nodes + 1 })

/-- The source-side block of `addEdge` (lines inserting into
`source->out_edges` and incrementing `source->outdegree`): pop a free
incidence slot if available, otherwise place at the node's own high-water
mark and bump it. -/
def addEdgeToOutList (h : Heap) (src e : Nat) : Heap :=
  let source := h.node src
  match source.free_out_edge_slots with
  | [] =>
    h.setNode src { source with
      out_edges := slotSet source.out_edges source.next_out_edge_index (some e),
      next_out_edge_index := source.next_out_edge_index + 1,
      outdegree := source.outdegree + 1 }
  | s :: rest =>
    h.setNode src { source with
      out_edges := slotSet source.out_edges s (some e),
      free_out_edge_slots := rest,
      outdegree := source.outdegree + 1 }

/-- The target-side block of `addEdge` (insertion into `target->in_edges`
and the `indegree` increment). -/
def addEdgeToInList (h : Heap) (tgt e : Nat) : Heap :=
  let target := h.node tgt
  match target.free_in_edge_slots with
  | [] =>
    h.setNode tgt { target with
      in_edges := slotSet target.in_edges target.next_in_edge_index (some e),
      next_in_edge_index := target.next_in_edge_index + 1,
      indegree := target.indegree + 1 }
  | s :: rest =>
    h.setNode tgt { target with
      in_edges := slotSet target.in_edges s (some e),
      free_in_edge_slots := rest,
      indegree := target.indegree + 1 }

/-- `addEdge` from `graph.c`: place the edge in the edge store (free slot
first, else high-water mark, recording the index in `edge->index`), insert
it into the source's out-incidence and the target's in-incidence updating
both degrees, prepend to `edges_by_label`, increment `number_of_edges`.
The target block reads the heap after the source block, so a self-loop
updates the one shared node object sequentially, as in C. -/
def addEdge (h : Heap) (g : Graph) (e : Nat) : Heap × Graph :=
  let edge := h.edge e
  let placed : Heap × Graph :=
    match g.free_edge_slots with
    | [] =>
      (h.setEdge e { edge with index := g.next_edge_index },
       { g with edges := slotSet g.edges g.next_edge_index (some e),
                next_edge_index := g.next_edge_index + 1 })
    | s :: rest =>
      (h.setEdge e { edge with index := s },
       { g with edges := slotSet g.edges s (some e),
                free_edge_slots := rest })
  let h1 := addEdgeToInList (addEdgeToOutList placed.1 edge.source e)
              edge.target e
  let g1 := placed.2
  let g2 := { g1 with
    edges_by_label := fun c =>
      if c = edge.label_class then e :: g1.edges_by_label edge.label_class
      else g1.edges_by_label c }
  (h1, { g2 with number_of_edges := g2.number_of_edges + 1 })

/-- The condition under which `removeNode` prints the dangling-incidence
error ("Cannot remove node with incident edges"): a live node whose
in-degree or out-degree is positive. -/
def removeNodeSignalsDangling (h : Heap) (g : Graph) (index : Nat) : Bool :=
  match getNode g index with
  | none => false
  | some n => decide (0 < (h.node n).indegree) || decide (0 < (h.node n).outdegree)

/-- `removeNode` from `graph.c`. A `NULL` result from `getNode` would be
dereferenced, so that case is `none` (undefined behaviour). When the node
has incident edges the error is reported and the state is returned
untouched. Otherwise the node is removed from its `nodes_by_label` list,
from the root list if its flag is set, and from the store; the slot is
nulled and either the high-water mark is decremented (trailing slot) or the
slot is pushed on the free-slot stack; `number_of_nodes` is decremented. -/
def removeNode (h : Heap) (g : Graph) (index : Nat) : Option (Heap × Graph) :=
  match getNode g index with
  | none => none
  | some n =>
    let node := h.node n
    if 0 < node.indegree ∨ 0 < node.outdegree then some (h, g)
    else
      let g1 := { g with
        nodes_by_label := fun c =>
          if c = node.label_class then
            (g.nodes_by_label node.label_class).erase n
          else g.nodes_by_label c }
      let g2 := if node.root
                then { g1 with root_nodes := g1.root_nodes.erase n }
                else g1
      let g3 := { g2 with nodes := slotSet g2.nodes index none }
      let g4 := if index = g.next_node_index - 1
                then { g3 with next_node_index := g3.next_node_index - 1 }
                else { g3 with free_node_slots := index :: g3.free_node_slots }
      some (h, { g4 with number_of_nodes := g4.number_of_nodes - 1 })

/-- The scan of `removeEdge` over an incidence array: the first slot below
`bound` holding the given edge pointer, if any. -/
def findEdgeSlot (arr : List (Option Nat)) (bound : Nat) (e : Nat) :
    Option Nat :=
  (List.range bound).find? fun c => slotGet arr c = some e

/-- The source-side block of `removeEdge`: walk `source->out_edges` up to
`next_out_edge_index`; on the slot holding the edge, null it, decrement
`outdegree`, and either shrink the high-water mark (trailing slot) or push
the slot on the free stack. If the edge is not found the loop terminates
with no effect. -/
def removeEdgeFromOutList (h : Heap) (src e : Nat) : Heap :=
  let source := h.node src
  match findEdgeSlot source.out_edges source.next_out_edge_index e with
  | none => h
  | some counter =>
    let cleared := { source with
      out_edges := slotSet source.out_edges counter none,
      outdegree := source.outdegree - 1 }
    if counter = source.next_out_edge_index - 1 then
      h.setNode src { cleared with
        next_out_edge_index := source.next_out_edge_index - 1 }
    else
      h.setNode src { cleared with
        free_out_edge_slots := counter :: source.free_out_edge_slots }

/-- The target-side block of `removeEdge` over `target->in_edges`. -/
def removeEdgeFromInList (h : Heap) (tgt e : Nat) : Heap :=
  let target := h.node tgt
  match findEdgeSlot target.in_edges target.next_in_edge_index e with
  | none => h
  | some counter =>
    let cleared := { target with
      in_edges := slotSet target.in_edges counter none,
      indegree := target.indegree - 1 }
    if counter = target.next_in_edge_index - 1 then
      h.setNode tgt { cleared with
        next_in_edge_index := target.next_in_edge_index - 1 }
    else
      h.setNode tgt { cleared with
        free_in_edge_slots := counter :: target.free_in_edge_slots }

/-- `removeEdge` from `graph.c`. A `NULL` edge from `getEdge` would be
dereferenced (`none`). Otherwise: clear the edge from the source's
out-incidence and the target's in-incidence (with the trailing-slot
collapse rule on each array), remove it from `edges_by_label`, null its
store slot with the same collapse rule on the edge store, and decrement
`number_of_edges`. -/
def removeEdge (h : Heap) (g : Graph) (index : Nat) : Option (Heap × Graph) :=
  match getEdge g index with
  | none => none
  | some e =>
    let edge := h.edge e
    let h1 := removeEdgeFromInList (removeEdgeFromOutList h edge.source e)
                edge.target e
    let g1 := { g with
      edges_by_label := fun c =>
        if c = edge.label_class then
          (g.edges_by_label edge.label_class).erase e
        else g.edges_by_label c }
    let g2 := { g1 with edges := slotSet g1.edges index none }
    let g3 := if index = g.next_edge_index - 1
              then { g2 with next_edge_index := g2.next_edge_index - 1 }
              else { g2 with free_edge_slots := index :: g2.free_edge_slots }
    some (h1, { g3 with number_of_edges := g3.number_of_edges - 1 })

/-- `relabelNode` from `graph.c`. If `change_root`, flip the flag and
add to or remove from the root list. If `change_label`, free the old label
(a pool no-op), adopt the new label pointer (`none` = the blank sentinel,
class `EMPTY_L`; otherwise classify with `getLabelClass`), and if the class
changed, update the cached class and move the node from the old class list
to the front of the new one. -/
def relabelNode (h : Heap) (g : Graph) (n : Nat) (new_label : Option Label)
    (change_label change_root : Bool) : Heap × Graph :=
  let node0 := h.node n
  let rooted : Heap × Graph :=
    if change_root then
      if node0.root then
        (h.setNode n { node0 with root := false },
         { g with root_nodes := g.root_nodes.erase n })
      else
        (h.setNode n { node0 with root := true },
         { g with root_nodes := n :: g.root_nodes })
    else (h, g)
  if change_label = false then rooted
  else
    let h1 := rooted.1
    let g1 := rooted.2
    let node := h1.node n
    let new_label_class : LabelClass :=
      match new_label with
      | none => .EMPTY_L
      | some l => getLabelClass l
    let h2 := h1.setNode n { node with label := new_label }
    if node.label_class ≠ new_label_class then
      let h3 := h2.setNode n { h2.node n with label_class := new_label_class }
      let g2 := { g1 with
        nodes_by_label := fun c =>
          if c = node.label_class then
            (g1.nodes_by_label node.label_class).erase n
          else g1.nodes_by_label c }
      let g3 := { g2 with
        nodes_by_label := fun c =>
          if c = new_label_class then
            n :: g2.nodes_by_label new_label_class
          else g2.nodes_by_label c }
      (h3, g3)
    else (h2, g1)

/-- `relabelEdge` from `graph.c`: like `relabelNode` but toggling the
bidirectional flag instead of the root flag, with no root list. -/
def relabelEdge (h : Heap) (g : Graph) (e : Nat) (new_label : Option Label)
    (change_label change_bidirectional : Bool) : Heap × Graph :=
  let edge0 := h.edge e
  let h0 := if change_bidirectional
            then h.setEdge e { edge0 with bidirectional := !edge0.bidirectional }
            else h
  if change_label = false then (h0, g)
  else
    let edge := h0.edge e
    let new_label_class : LabelClass :=
      match new_label with
      | none => .EMPTY_L
      | some l => getLabelClass l
    let h1 := h0.setEdge e { edge with label := new_label }
    if edge.label_class ≠ new_label_class then
      let h2 := h1.setEdge e { h1.edge e with label_class := new_label_class }
      let g1 := { g with
        edges_by_label := fun c =>
          if c = edge.label_class then
            (g.edges_by_label edge.label_class).erase e
          else g.edges_by_label c }
      let g2 := { g1 with
        edges_by_label := fun c =>
          if c = new_label_class then
            e :: g1.edges_by_label new_label_class
          else g1.edges_by_label c }
      (h2, g2)
    else (h1, g)

/-- The body of `validGraph`'s node-array loop for one slot: a `NULL` slot
must be on the free-node stack (invariant 1, vacuous when the high-water
mark is zero); a live node has each `NULL` incidence slot on the matching
free stack (invariants 5, 7), each populated incidence slot consistent
with the edge store (invariant 9), degrees equal to populated incidence
counts (invariants 6, 8), and membership in its class list (invariant 12). -/
def validNodeSlot (h : Heap) (g : Graph) (i : Nat) : Bool :=
  match getNode g i with
  | none =>
    stackContains g.free_node_slots i || decide (g.next_node_index = 0)
  | some n =>
    let node := h.node n
    ((List.range node.next_out_edge_index).all fun j =>
      match node.getOutEdge j with
      | none =>
        stackContains node.free_out_edge_slots j ||
          decide (node.next_out_edge_index = 0)
      | some e => getEdge g (h.edge e).index == some e) &&
    (node.outdegree == countPopulated node.out_edges node.next_out_edge_index) &&
    ((List.range node.next_in_edge_index).all fun j =>
      match node.getInEdge j with
      | none =>
        stackContains node.free_in_edge_slots j ||
          decide (node.next_in_edge_index = 0)
      | some e => getEdge g (h.edge e).index == some e) &&
    (node.indegree == countPopulated node.in_edges node.next_in_edge_index) &&
    (g.nodes_by_label node.label_class).contains n

/-- The body of `validGraph`'s edge-array loop for one slot: a `NULL` slot
must be on the free-edge stack (invariant 3); a live edge has its source
and target consistent with the node store (invariant 10), occurs in the
source's out-incidence and the target's in-incidence (invariant 11), and
occurs in its class list (invariant 13). The incidence searches scan
`counter < source->outdegree` and `counter < target->indegree` exactly as
the C does (not the arrays' high-water marks). -/
def validEdgeSlot (h : Heap) (g : Graph) (i : Nat) : Bool :=
  match getEdge g i with
  | none =>
    stackContains g.free_edge_slots i || decide (g.next_edge_index = 0)
  | some e =>
    let edge := h.edge e
    let source := h.node edge.source
    let target := h.node edge.target
    (getNode g source.index == some edge.source) &&
    ((List.range source.outdegree).any fun counter =>
      source.getOutEdge counter == some e) &&
    (getNode g target.index == some edge.target) &&
    ((List.range target.indegree).any fun counter =>
      target.getInEdge counter == some e) &&
    (g.edges_by_label edge.label_class).contains e

/-- `validGraph` from `graph.c`. A `NULL` graph, or one whose node and edge
counts are both zero, is reported valid immediately. Otherwise the node
and edge arrays are walked below their high-water marks, every per-slot
check must pass, and the populated-slot counts must equal
`number_of_nodes`/`number_of_edges` (invariants 2, 4). -/
def validGraph (h : Heap) (graph : Option Graph) : Bool :=
  match graph with
  | none => true
  | some g =>
    if g.number_of_edges = 0 && g.number_of_nodes = 0 then true
    else
      ((List.range g.next_node_index).all fun i => validNodeSlot h g i) &&
      (countPopulated g.nodes g.next_node_index == g.number_of_nodes) &&
      ((List.range g.next_edge_index).all fun i => validEdgeSlot h g i) &&
      (countPopulated g.edges g.next_edge_index == g.number_of_edges)

/-- The global invariants exactly as worded in section 3 of the
specification (and repeated in claim C1), as a decidable check. This
definition follows the specification's words — not the source — and exists
only to be compared with the source-translated `validGraph`:
1. every occupied slot holds an entity whose recorded index is that slot;
2. every empty slot below the high-water mark is exactly once on the
   free-slot stack;
3. the counts equal the numbers of occupied slots;
4. each edge occurs exactly once in its source's out-incidence and exactly
   once in its target's in-incidence;
5. recorded degrees equal populated incidence counts;
6. each entity occurs exactly once in the class list of its current label
   class and in no other class list;
7. a node is in the root set iff its root flag is set. -/
def specInvariantsHold (h : Heap) (g : Graph) : Bool :=
  ((List.range g.next_node_index).all fun i =>
    match slotGet g.nodes i with
    | none => g.free_node_slots.count i == 1
    | some n => (h.node n).index == i) &&
  ((List.range g.next_edge_index).all fun i =>
    match slotGet g.edges i with
    | none => g.free_edge_slots.count i == 1
    | some e => (h.edge e).index == i) &&
  (countPopulated g.nodes g.next_node_index == g.number_of_nodes) &&
  (countPopulated g.edges g.next_edge_index == g.number_of_edges) &&
  ((List.range g.next_edge_index).all fun i =>
    match slotGet g.edges i with
    | none => true
    | some e =>
      (((List.range (h.node (h.edge e).source).next_out_edge_index).filter
          fun j =>
            slotGet (h.node (h.edge e).source).out_edges j == some e).length
        == 1) &&
      (((List.range (h.node (h.edge e).target).next_in_edge_index).filter
          fun j =>
            slotGet (h.node (h.edge e).target).in_edges j == some e).length
        == 1)) &&
  ((List.range g.next_node_index).all fun i =>
    match slotGet g.nodes i with
    | none => true
    | some n =>
      ((h.node n).outdegree ==
        countPopulated (h.node n).out_edges (h.node n).next_out_edge_index) &&
      ((h.node n).indegree ==
        countPopulated (h.node n).in_edges (h.node n).next_in_edge_index)) &&
  ((List.range g.next_node_index).all fun i =>
    match slotGet g.nodes i with
    | none => true
    | some n =>
      allLabelClasses.all fun c =>
        (g.nodes_by_label c).count n ==
          (if c = (h.node n).label_class then 1 else 0)) &&
  ((List.range g.next_edge_index).all fun i =>
    match slotGet g.edges i with
    | none => true
    | some e =>
      allLabelClasses.all fun c =>
        (g.edges_by_label c).count e ==
          (if c = (h.edge e).label_class then 1 else 0)) &&
  ((List.range g.next_node_index).all fun i =>
    match slotGet g.nodes i with
    | none => true
    | some n => g.root_nodes.contains n == (h.node n).root)

/-- One slot of `copyGraph`'s first pass (edges): an empty slot of the
original is recorded on the copy's free-edge stack; a live edge is
`memcpy`-ed (same index, flag, cached class, and — for now — the original
source/target pointers), its label deep-copied with `copyLabel`, the copy
placed at the same slot and prepended to the copy's `edges_by_label` list. -/
def copyEdgeSlot (gmark : MarkType) (glen : Nat) (gvar : Bool)
    (graph : Graph) (st : Heap × Graph) (index : Nat) :
    Option (Heap × Graph) :=
  let h := st.1
  let gc := st.2
  match getEdge graph index with
  | none =>
    some (h, { gc with free_edge_slots := index :: gc.free_edge_slots })
  | some e =>
    let edge := h.edge e
    match copyLabel gmark glen gvar edge.label with
    | none => none
    | some label_copy =>
      let alloc := h.allocEdge { edge with label := label_copy }
      some (alloc.1,
        { gc with
          edges := slotSet gc.edges index (some alloc.2),
          edges_by_label := fun c =>
            if c = edge.label_class then
              alloc.2 :: gc.edges_by_label edge.label_class
            else gc.edges_by_label c })

/-- One slot of the out-incidence translation inside `copyGraph`'s second
pass: an empty slot goes on the node copy's fresh free-out stack; a
populated slot is rewritten to the copy of that edge, looked up in the copy
graph through the edge's recorded index (the stored pointer may be `NULL`
if the lookup misses, exactly as in C). -/
def translateOutSlot (h : Heap) (gc : Graph) (node : NodeObj)
    (acc : NodeObj) (counter : Nat) : NodeObj :=
  match node.getOutEdge counter with
  | none =>
    { acc with free_out_edge_slots := counter :: acc.free_out_edge_slots }
  | some e =>
    { acc with
      out_edges := slotSet acc.out_edges counter (getEdge gc (h.edge e).index) }

/-- One slot of the in-incidence translation inside `copyGraph`'s second
pass. -/
def translateInSlot (h : Heap) (gc : Graph) (node : NodeObj)
    (acc : NodeObj) (counter : Nat) : NodeObj :=
  match node.getInEdge counter with
  | none =>
    { acc with free_in_edge_slots := counter :: acc.free_in_edge_slots }
  | some e =>
    { acc with
      in_edges := slotSet acc.in_edges counter (getEdge gc (h.edge e).index) }

/-- One slot of `copyGraph`'s second pass (nodes): an empty slot goes on
the copy's free-node stack; a live node is `memcpy`-ed, its label
deep-copied, its incidence arrays rebuilt against the copied edges with
fresh free stacks, the copy placed at the same slot, prepended to the
copy's class list, and to the copy's root list when its flag is set. -/
def copyNodeSlot (gmark : MarkType) (glen : Nat) (gvar : Bool)
    (graph : Graph) (st : Heap × Graph) (index : Nat) :
    Option (Heap × Graph) :=
  let h := st.1
  let gc := st.2
  match getNode graph index with
  | none =>
    some (h, { gc with free_node_slots := index :: gc.free_node_slots })
  | some n =>
    let node := h.node n
    match copyLabel gmark glen gvar node.label with
    | none => none
    | some label_copy =>
      let base : NodeObj :=
        { node with label := label_copy,
                    out_edges := [], in_edges := [],
                    free_out_edge_slots := [], free_in_edge_slots := [] }
      let withOut := (List.range node.next_out_edge_index).foldl
        (translateOutSlot h gc node) base
      let withIn := (List.range node.next_in_edge_index).foldl
        (translateInSlot h gc node) withOut
      let alloc := h.allocNode withIn
      let gc1 := { gc with
        nodes := slotSet gc.nodes index (some alloc.2),
        nodes_by_label := fun c =>
          if c = node.label_class then
            alloc.2 :: gc.nodes_by_label node.label_class
          else gc.nodes_by_label c }
      let gc2 := if withIn.root
                 then { gc1 with root_nodes := alloc.2 :: gc1.root_nodes }
                 else gc1
      some (alloc.1, gc2)

/-- One slot of `copyGraph`'s third pass, which rewrites each copied edge's
source and target to the copied nodes. The C loop, unlike the first two
passes, has no `NULL` check on `getEdge(graph_copy, index)`: on an empty
edge slot `getSource` dereferences a null pointer, modelled as `none`.
A failed `getNode` lookup would store a null node pointer whose every
later use dereferences it; that is also modelled as `none`. -/
def rewireEdgeSlot (gc : Graph) (h : Heap) (index : Nat) : Option Heap :=
  match getEdge gc index with
  | none => none
  | some ec =>
    let edge_copy := h.edge ec
    let source := h.node edge_copy.source
    match getNode gc source.index with
    | none => none
    | some source_copy =>
      let h1 := h.setEdge ec { edge_copy with source := source_copy }
      let edge_copy2 := h1.edge ec
      let target := h1.node edge_copy2.target
      match getNode gc target.index with
      | none => none
      | some target_copy =>
        some (h1.setEdge ec { edge_copy2 with target := target_copy })

/-- `copyGraph` from `graph.c`: a fresh graph adopts the original's
high-water marks and counts; pass one copies the edge array, pass two the
node array, pass three rewires the copied edges' endpoints. The result is
the heap extended with the copies and the copy graph (which the C code
then pushes on the snapshot stack); `none` models a run that dereferences
a null pointer. -/
def copyGraph (gmark : MarkType) (glen : Nat) (gvar : Bool)
    (h : Heap) (graph : Graph) : Option (Heap × Graph) :=
  let graph_copy := { newGraph with
    next_node_index := graph.next_node_index,
    next_edge_index := graph.next_edge_index,
    number_of_nodes := graph.number_of_nodes,
    number_of_edges := graph.number_of_edges }
  match (List.range graph.next_edge_index).foldlM
      (copyEdgeSlot gmark glen gvar graph) (h, graph_copy) with
  | none => none
  | some st1 =>
    match (List.range graph.next_node_index).foldlM
        (copyNodeSlot gmark glen gvar graph) st1 with
    | none => none
    | some st2 =>
      match (List.range st2.2.next_edge_index).foldlM
          (rewireEdgeSlot st2.2) st2.1 with
      | none => none
      | some h3 => some (h3, st2.2)

/-- `copyGraph`'s final block: push the copy on the process-wide snapshot
stack (head = top). -/
def copyGraphPush (gmark : MarkType) (glen : Nat) (gvar : Bool)
    (h : Heap) (graph : Graph) (stack : List Graph) :
    Option (Heap × List Graph) :=
  (copyGraph gmark glen gvar h graph).map fun hg => (hg.1, hg.2 :: stack)

/-- `restoreGraph` from `graph.c`: free the current graph (a pool no-op)
and pop the snapshot stack; popping an empty stack returns `NULL`, which
the C code dereferences (`none`). -/
def restoreGraph (stack : List Graph) : Option (Graph × List Graph) :=
  match stack with
  | [] => none
  | top :: rest => some (top, rest)

/-- A graph built by public operations only: two nodes `n0`, `n1` (blank
labels), two parallel edges `n0 → n1`, then `removeEdge` on edge index 0.
Afterwards `n0`'s out-incidence and `n1`'s in-incidence are `[NULL, e1]`
with high-water mark 2 — a hole before a populated slot. Node pointers are
pool indices 0 and 1, edge pointers 0 and 1. -/
def churnState : Heap × Graph :=
  let a1 := newNode emptyHeap false none
  let b1 := addNode a1.1 newGraph a1.2
  let a2 := newNode b1.1 false none
  let b2 := addNode a2.1 b1.2 a2.2
  let a3 := newEdge b2.1 false none a1.2 a2.2
  let b3 := addEdge a3.1 b2.2 a3.2
  let a4 := newEdge b3.1 false none a1.2 a2.2
  let b4 := addEdge a4.1 b3.2 a4.2
  (removeEdge b4.1 b4.2 0).getD b4

/-- One blank node with one self-loop edge: both high-water marks are 1. -/
def oneLoopState : Heap × Graph :=
  let a1 := newNode emptyHeap false none
  let b1 := addNode a1.1 newGraph a1.2
  let a2 := newEdge b1.1 false none a1.2 a1.2
  addEdge a2.1 b1.2 a2.2

/-- A heap label of six integer atoms — longer than the GP 2 maximum of
five — with a correctly recorded length and no list variable. -/
def sixIntLabel : Label :=
  { mark := .NONE,
    list := [.INTEGER_CONSTANT 1, .INTEGER_CONSTANT 2, .INTEGER_CONSTANT 3,
             .INTEGER_CONSTANT 4, .INTEGER_CONSTANT 5, .INTEGER_CONSTANT 6],
    list_length := 6,
    has_list_variable := false }

/-- `add_node` applied with the six-atom label. -/
def sixAtomState : Heap × Graph :=
  let a := newNode emptyHeap false (some sixIntLabel)
  addNode a.1 newGraph a.2

/-- A single blank unrooted node (node pointer 0 at slot 0). -/
def oneNodeState : Heap × Graph :=
  let a := newNode emptyHeap false none
  addNode a.1 newGraph a.2

/-- The label `[42]`, of class `INT_L`. -/
def fortyTwoLabel : Label :=
  { mark := .NONE, list := [.INTEGER_CONSTANT 42], list_length := 1,
    has_list_variable := false }

/-- A heap-allocated label with a `NULL` atom list but a non-blank mark:
value-wise it denotes the empty list marked red, and it is not the
`&blank_label` sentinel. -/
def emptyRedLabel : Label :=
  { mark := .RED, list := [], list_length := 0, has_list_variable := false }

/-- Scenario S1: five blank nodes `n0..n4` with `n0` rooted, and the path
edges `n0→n1`, `n1→n2`, `n2→n3`, `n3→n4`. Node pointers are pool indices
0..4 at slots 0..4; edge pointers 0..3 at slots 0..3. -/
def s1State : Heap × Graph :=
  let a0 := newNode emptyHeap true none
  let b0 := addNode a0.1 newGraph a0.2
  let a1 := newNode b0.1 false none
  let b1 := addNode a1.1 b0.2 a1.2
  let a2 := newNode b1.1 false none
  let b2 := addNode a2.1 b1.2 a2.2
  let a3 := newNode b2.1 false none
  let b3 := addNode a3.1 b2.2 a3.2
  let a4 := newNode b3.1 false none
  let b4 := addNode a4.1 b3.2 a4.2
  let e0 := newEdge b4.1 false none a0.2 a1.2
  let c0 := addEdge e0.1 b4.2 e0.2
  let e1 := newEdge c0.1 false none a1.2 a2.2
  let c1 := addEdge e1.1 c0.2 e1.2
  let e2 := newEdge c1.1 false none a2.2 a3.2
  let c2 := addEdge e2.1 c1.2 e2.2
  let e3 := newEdge c2.1 false none a3.2 a4.2
  addEdge e3.1 c2.2 e3.2

/-- Scenario S2: from S1, `remove_edge(1)` then
`add_edge(false, empty, N1, N3)`. The new edge is pool index 4. -/
def s2State : Heap × Graph :=
  let removed := (removeEdge s1State.1 s1State.2 1).getD s1State
  let a := newEdge removed.1 false none 1 3
  addEdge a.1 removed.2 a.2

/-- A deliberately inconsistent zero-count graph: an occupied node slot
below the high-water mark, a free-slot stack naming slot 5 (which is not
empty-below-the-mark), and a root list naming a pointer that is in no
slot — yet both entity counts read zero. -/
def junkGraph : Graph :=
  { nodes := [some 0], edges := [],
    free_node_slots := [5], free_edge_slots := [],
    next_node_index := 3, next_edge_index := 0,
    number_of_nodes := 0, number_of_edges := 0,
    nodes_by_label := fun _ => [], edges_by_label := fun _ => [],
    root_nodes := [7] }

/-- A heap giving the junk graph's node pointer something to refer to. -/
def junkHeap : Heap :=
  { nodePool := [(newNode emptyHeap false none).1.node 0], edgePool := [] }

/-- Reading back the slot just written: `insert` followed by `get` on the
returned index yields the element. -/
lemma slotGet_slotSet_self (arr : List (Option Nat)) (i : Nat) (v : Option Nat) :
    slotGet (slotSet arr i v) i = v := by
  unfold slotGet slotSet
  have hlen : i < (arr ++ List.replicate (i + 1 - arr.length) none).length := by
    simp only [List.length_append, List.length_replicate]
    omega
  rw [List.getD_eq_getD_get?, List.get?_eq_getElem?,
      List.getElem?_set_eq_of_lt _ hlen]
  rfl

/-- Reading a pool entry just overwritten through a valid pointer. -/
lemma getD_set_self {α : Type} [Inhabited α] (l : List α) (i : Nat) (v : α)
    (h : i < l.length) : (l.set i v).getD i default = v := by
  rw [List.getD_eq_getD_get?, List.get?_eq_getElem?,
      List.getElem?_set_eq_of_lt _ h]
  rfl

/-- The incidence insertion on the source node touches only the node pool. -/
lemma edgePool_addEdgeToOutList (h : Heap) (src e : Nat) :
    (addEdgeToOutList h src e).edgePool = h.edgePool := by
  cases hs : (h.node src).free_out_edge_slots with
  | nil => simp only [addEdgeToOutList, hs]; rfl
  | cons a l => simp only [addEdgeToOutList, hs]; rfl

/-- The incidence insertion on the target node touches only the node pool. -/
lemma edgePool_addEdgeToInList (h : Heap) (tgt e : Nat) :
    (addEdgeToInList h tgt e).edgePool = h.edgePool := by
  cases hs : (h.node tgt).free_in_edge_slots with
  | nil => simp only [addEdgeToInList, hs]; rfl
  | cons a l => simp only [addEdgeToInList, hs]; rfl

/-- Erasing the only occurrence of an element removes it from the list. -/
lemma not_mem_erase_of_count_le_one (l : List Nat) (n : Nat)
    (h : l.count n ≤ 1) : n ∉ l.erase n := by
  intro hmem
  have h1 : (l.erase n).count n = l.count n - 1 := List.count_erase_self n l
  have h2 : 0 < (l.erase n).count n := List.count_pos_iff.mpr hmem
  omega

/-- C1. The claim states that on every state reachable from `new_graph()`
by the public mutations all global invariants of section 3 hold — which is
so — and that consequently `valid_graph` returns true after every
operation. The latter is false of the code: `churnState` is reached by
`add_node`, `add_node`, `add_edge`, `add_edge`, `remove_edge(0)`, each of
the specification's invariants 1-7 holds there (second conjunct), yet
`validGraph` reports failure (first conjunct), because its edge loop
searches the source's out-incidence only up to `outdegree` (and the
target's in-incidence up to `indegree`) instead of the arrays' high-water
marks, missing an edge stored after a freed slot. -/
theorem c1_invariants_hold_but_validGraph_false :
    validGraph churnState.1 (some churnState.2) = false ∧
    specInvariantsHold churnState.1 churnState.2 = true := by
  constructor <;> decide

/-- C2. The claim states that `copy_graph` followed by any mutations and
`restore_graph` yields a graph indistinguishable from the snapshotted one.
The code cannot deliver this for every graph: on `churnState` — reachable
by public mutations, with a freed slot in the edge array below the
high-water mark — `copyGraph` crashes, because its third pass calls
`getSource(getEdge(graph_copy, index))` without the `NULL` check the first
two passes perform, dereferencing a null pointer at the freed slot. The
result is `none` for every possible content of the uninitialized bytes
that `copyLabel` can leave behind. -/
theorem c2_copyGraph_null_deref_on_freed_edge_slot
    (gmark : MarkType) (glen : Nat) (gvar : Bool) :
    copyGraph gmark glen gvar churnState.1 churnState.2 = none := rfl

/-- C3. For every live node with positive in-degree or out-degree,
`removeNode` signals the dangling-incidence error and returns with the
heap and the graph exactly as they were: no count, slot, label, class-list
or root-list change. -/
theorem c3_removeNode_dangling_leaves_graph_unchanged
    (h : Heap) (g : Graph) (i n : Nat)
    (hget : getNode g i = some n)
    (hdeg : 0 < (h.node n).indegree ∨ 0 < (h.node n).outdegree) :
    removeNode h g i = some (h, g) ∧
    removeNodeSignalsDangling h g i = true := by
  constructor
  · simp only [removeNode, hget]
    rw [if_pos hdeg]
  · simp only [removeNodeSignalsDangling, hget]
    rcases hdeg with h1 | h1 <;> simp [h1]

/-- Witness for C3: in `oneLoopState` node 0 carries a self-loop, so
`removeNode` on it signals dangling-incidence and changes nothing. -/
theorem c3_removeNode_dangling_witness :
    getNode oneLoopState.2 0 = some 0 ∧
    0 < (oneLoopState.1.node 0).outdegree ∧
    removeNode oneLoopState.1 oneLoopState.2 0 =
      some (oneLoopState.1, oneLoopState.2) ∧
    removeNodeSignalsDangling oneLoopState.1 oneLoopState.2 0 = true := by
  refine ⟨rfl, by decide, ?_, ?_⟩
  · exact (c3_removeNode_dangling_leaves_graph_unchanged oneLoopState.1
      oneLoopState.2 0 0 rfl (Or.inr (by decide))).1
  · exact (c3_removeNode_dangling_leaves_graph_unchanged oneLoopState.1
      oneLoopState.2 0 0 rfl (Or.inr (by decide))).2

/-- C4. Wherever the specification's classification table assigns a class
— empty list, list variable anywhere, length-1 atom kinds, lengths 2 to 5 —
`getLabelClass` computes exactly that class, for every label whose recorded
list length matches its list. -/
theorem c4_getLabelClass_agrees_with_spec_table (l : Label) (c : LabelClass)
    (hwf : l.list_length = l.list.length)
    (hspec : specLabelClass l = some c) :
    getLabelClass l = c := by
  obtain ⟨mark, list, len, flag⟩ := l
  simp only at hwf
  cases flag with
  | true =>
    simp only [specLabelClass] at hspec
    simp only [getLabelClass]
    exact Option.some_inj.mp hspec
  | false =>
    simp only [specLabelClass, Bool.false_eq_true, if_false] at hspec
    simp only [getLabelClass, Bool.false_eq_true, if_false]
    cases list with
    | nil => simpa using hspec
    | cons a tail =>
      cases tail with
      | nil =>
        subst hwf
        cases a <;> simp_all
      | cons b t =>
        subst hwf
        simp only [List.length_cons] at hspec ⊢
        split_ifs at hspec with h1 h2 h3 h4 <;> simp_all

/-- Witness for C4: the table classifies `[42]` as `int` and so does
`getLabelClass`. -/
theorem c4_getLabelClass_witness :
    fortyTwoLabel.list_length = fortyTwoLabel.list.length ∧
    specLabelClass fortyTwoLabel = some .INT_L ∧
    getLabelClass fortyTwoLabel = .INT_L :=
  ⟨rfl, rfl, c4_getLabelClass_agrees_with_spec_table fortyTwoLabel .INT_L rfl rfl⟩

/-- C5. The claim states that a label longer than five atoms is rejected
before installation. The code signals the error (first conjunct) but does
not reject: `getLabelClass` falls through its `switch` default, classifies
the six-atom label by its first atom as `INT_L`, and `add_node` installs
the node with that label, present in the `INT_L` class index with the node
count incremented. -/
theorem c5_too_long_label_is_installed :
    labelTooLongLogged sixIntLabel = true ∧
    getLabelClass sixIntLabel = .INT_L ∧
    getNode sixAtomState.2 0 = some 0 ∧
    (sixAtomState.1.node 0).label = some sixIntLabel ∧
    (sixAtomState.1.node 0).label_class = .INT_L ∧
    getNodesByLabel sixAtomState.2 .INT_L = [0] ∧
    sixAtomState.2.number_of_nodes = 1 :=
  ⟨rfl, rfl, rfl, rfl, rfl, rfl, rfl⟩

/-- C6. The claim states the accessors fail with out-of-range for every
index at or above the high-water mark. The code tests `index > h`, not
`index >= h`: in `oneLoopState` both marks are 1, and at index 1 — exactly
the mark — neither `getNode` nor `getEdge` signals out-of-range; each
silently reads the slot one past the end (yielding the free-slot answer
`NULL`), while index 2 does signal. -/
theorem c6_get_accessors_read_one_past_high_water_mark :
    oneLoopState.2.next_node_index = 1 ∧
    getNodeOutOfRange oneLoopState.2 1 = false ∧
    getNode oneLoopState.2 1 = none ∧
    getNodeOutOfRange oneLoopState.2 2 = true ∧
    oneLoopState.2.next_edge_index = 1 ∧
    getEdgeOutOfRange oneLoopState.2 1 = false ∧
    getEdge oneLoopState.2 1 = none ∧
    getEdgeOutOfRange oneLoopState.2 2 = true := by
  decide

/-- C7. Insertion into the edge store reuses freed slots LIFO: with a
non-empty free-slot stack, `addEdge` places the edge at the popped slot,
records that slot in the edge's index field, and leaves the high-water
mark alone; with an empty stack it places the edge at the mark and
increments it. Consequently in scenario S2 (the S1 graph after
`remove_edge(1)` and a fresh `add_edge(false, empty, N1, N3)`) the new
edge — pool pointer 4 — receives index 1. -/
theorem c7_insert_reuses_freed_slots :
    (∀ (h : Heap) (g : Graph) (e s : Nat) (rest : List Nat),
      e < h.edgePool.length →
      g.free_edge_slots = s :: rest →
      slotGet (addEdge h g e).2.edges s = some e ∧
      ((addEdge h g e).1.edge e).index = s ∧
      (addEdge h g e).2.free_edge_slots = rest ∧
      (addEdge h g e).2.next_edge_index = g.next_edge_index) ∧
    (∀ (h : Heap) (g : Graph) (e : Nat),
      e < h.edgePool.length →
      g.free_edge_slots = [] →
      slotGet (addEdge h g e).2.edges g.next_edge_index = some e ∧
      ((addEdge h g e).1.edge e).index = g.next_edge_index ∧
      (addEdge h g e).2.next_edge_index = g.next_edge_index + 1) ∧
    ((s2State.1.edge 4).index = 1 ∧ slotGet s2State.2.edges 1 = some 4) := by
  refine ⟨?_, ?_, rfl, rfl⟩
  · intro h g e s rest he hfree
    refine ⟨?_, ?_, ?_, ?_⟩
    · simp only [addEdge, hfree]
      exact slotGet_slotSet_self _ _ _
    · simp only [addEdge, hfree]
      unfold Heap.edge
      rw [edgePool_addEdgeToInList, edgePool_addEdgeToOutList]
      show ((h.edgePool.set e _).getD e default).index = s
      rw [getD_set_self _ _ _ he]
    · simp only [addEdge, hfree]
    · simp only [addEdge, hfree]
  · intro h g e he hfree
    refine ⟨?_, ?_, ?_⟩
    · simp only [addEdge, hfree]
      exact slotGet_slotSet_self _ _ _
    · simp only [addEdge, hfree]
      unfold Heap.edge
      rw [edgePool_addEdgeToInList, edgePool_addEdgeToOutList]
      show ((h.edgePool.set e _).getD e default).index = g.next_edge_index
      rw [getD_set_self _ _ _ he]
    · simp only [addEdge, hfree]

/-- A one-edge heap and a graph whose free-edge stack holds slot 3, for
instantiating the slot-reuse theorem. -/
def c7WitnessHeap : Heap := { nodePool := [], edgePool := [default] }

/-- The companion graph for the slot-reuse witness. -/
def c7WitnessGraph : Graph := { newGraph with free_edge_slots := [3] }

/-- Witness for C7: with free slot 3 on the stack, `addEdge` places edge
pointer 0 at slot 3, records index 3 in the edge, empties the stack and
leaves the high-water mark at 0. -/
theorem c7_insert_witness :
    0 < c7WitnessHeap.edgePool.length ∧
    c7WitnessGraph.free_edge_slots = 3 :: [] ∧
    slotGet (addEdge c7WitnessHeap c7WitnessGraph 0).2.edges 3 = some 0 ∧
    ((addEdge c7WitnessHeap c7WitnessGraph 0).1.edge 0).index = 3 ∧
    (addEdge c7WitnessHeap c7WitnessGraph 0).2.free_edge_slots = [] ∧
    (addEdge c7WitnessHeap c7WitnessGraph 0).2.next_edge_index = 0 := by
  have happ := c7_insert_reuses_freed_slots.1 c7WitnessHeap c7WitnessGraph 0 3 []
    (by decide) rfl
  exact ⟨by decide, rfl, happ.1, happ.2.1, happ.2.2.1, happ.2.2.2⟩

/-- C8. For every live node pointer whose cached class differs from the
new label's class and which occurs at most once in its current class list
(the specification's invariant 6 guarantees exactly once), `relabelNode`
with `change_label` removes the node from the old class list, prepends it
to the new one, updates the cached class and installs the new label. -/
theorem c8_relabelNode_moves_between_class_lists
    (h : Heap) (g : Graph) (n : Nat) (lab : Label)
    (hn : n < h.nodePool.length)
    (hcls : (h.node n).label_class ≠ getLabelClass lab)
    (hcount : (g.nodes_by_label (h.node n).label_class).count n ≤ 1) :
    n ∉ (relabelNode h g n (some lab) true false).2.nodes_by_label
        (h.node n).label_class ∧
    (relabelNode h g n (some lab) true false).2.nodes_by_label
        (getLabelClass lab) = n :: g.nodes_by_label (getLabelClass lab) ∧
    ((relabelNode h g n (some lab) true false).1.node n).label_class =
        getLabelClass lab ∧
    ((relabelNode h g n (some lab) true false).1.node n).label = some lab := by
  have hne : ¬ ((h.node n).label_class = getLabelClass lab) := hcls
  have hne2 : ¬ (getLabelClass lab = (h.node n).label_class) :=
    fun hx => hne hx.symm
  refine ⟨?_, ?_, ?_, ?_⟩
  · simp only [relabelNode, Bool.true_eq_false, Bool.false_eq_true, if_false,
      ne_eq, hne, not_false_eq_true, if_true]
    exact not_mem_erase_of_count_le_one _ _ hcount
  · simp only [relabelNode, Bool.true_eq_false, Bool.false_eq_true, if_false,
      ne_eq, hne, not_false_eq_true, if_true, hne2]
  · simp only [relabelNode, Bool.true_eq_false, Bool.false_eq_true, if_false,
      ne_eq, hne, not_false_eq_true, if_true]
    unfold Heap.node Heap.setNode
    dsimp only
    rw [getD_set_self]
    simp only [List.length_set]
    exact hn
  · simp only [relabelNode, Bool.true_eq_false, Bool.false_eq_true, if_false,
      ne_eq, hne, not_false_eq_true, if_true]
    unfold Heap.node Heap.setNode
    dsimp only
    rw [getD_set_self]
    · dsimp only
      rw [getD_set_self _ _ _ hn]
    · simp only [List.length_set]
      exact hn

/-- Witness for C8 — scenario S4: node 0 of `oneNodeState` has class
`empty`; relabelling it to `[42]` leaves `nodes_by_class(empty)` without
it, puts it (alone) in `nodes_by_class(int)`, and records class `int`. -/
theorem c8_relabelNode_witness :
    (oneNodeState.1.node 0).label_class = .EMPTY_L ∧
    getLabelClass fortyTwoLabel = .INT_L ∧
    0 ∉ (relabelNode oneNodeState.1 oneNodeState.2 0 (some fortyTwoLabel)
          true false).2.nodes_by_label .EMPTY_L ∧
    (relabelNode oneNodeState.1 oneNodeState.2 0 (some fortyTwoLabel)
          true false).2.nodes_by_label .INT_L = [0] ∧
    ((relabelNode oneNodeState.1 oneNodeState.2 0 (some fortyTwoLabel)
          true false).1.node 0).label_class = .INT_L := by
  have happ := c8_relabelNode_moves_between_class_lists oneNodeState.1
    oneNodeState.2 0 fortyTwoLabel (by decide) (by decide) (by decide)
  exact ⟨rfl, rfl, happ.1, happ.2.1, happ.2.2.1⟩

/-- C9. The claim states `label_class(copy_label(L)) = label_class(L)` for
every label, the copy preserving mark, list length and the list-variable
flag even for empty atom lists. The code violates this for every
heap-allocated label with a `NULL` atom list: `copyLabel` assigns only the
`list` field and leaves the other three as whatever garbage the `malloc`
bytes held, so the copy of the red empty-list label can come back with
mark `NONE` and the list-variable flag set, classifying as `LISTVAR_L`
instead of `EMPTY_L`. -/
theorem c9_copyLabel_empty_list_garbage_fields :
    getLabelClass emptyRedLabel = .EMPTY_L ∧
    copyLabel .NONE 0 true (some emptyRedLabel) =
      some (some { mark := .NONE, list := [], list_length := 0,
                   has_list_variable := true }) ∧
    getLabelClass { mark := .NONE, list := [], list_length := 0,
                    has_list_variable := true } = .LISTVAR_L ∧
    copyLabel .GREEN 7 false (some emptyRedLabel) =
      some (some { mark := .GREEN, list := [], list_length := 7,
                   has_list_variable := false }) :=
  ⟨rfl, rfl, rfl, rfl⟩

/-- C10. `validGraph` answers true for the `NULL` graph and for any graph
whose two entity counts are zero, before walking the store or checking any
invariant. -/
theorem c10_validGraph_trivially_true_on_zero_counts (h : Heap) (g : Graph)
    (hn : g.number_of_nodes = 0) (he : g.number_of_edges = 0) :
    validGraph h (some g) = true ∧ validGraph h none = true := by
  constructor
  · simp [validGraph, hn, he]
  · rfl

/-- Witness for C10: `junkGraph` has zero counts but an occupied node slot
below its high-water mark (populated count 1), a free-slot stack naming a
non-empty slot, and a dangling root entry — and is still reported valid. -/
theorem c10_validGraph_witness :
    junkGraph.number_of_nodes = 0 ∧ junkGraph.number_of_edges = 0 ∧
    countPopulated junkGraph.nodes junkGraph.next_node_index = 1 ∧
    stackContains junkGraph.free_node_slots 5 = true ∧
    junkGraph.root_nodes = [7] ∧
    validGraph junkHeap (some junkGraph) = true := by
  refine ⟨rfl, rfl, by decide, by decide, rfl,
    (c10_validGraph_trivially_true_on_zero_counts junkHeap junkGraph rfl rfl).1⟩
